import Mathlib

/-!
Shallow embedding of the availability / capacity / pricing / lifecycle core of
the booking server (src/backend/server.js together with src/backend/db/index.js).

Conventions of the embedding:
- clock times ("HH:MM" strings in the source) are carried either as a
  `ClockTime` (hour, minute) pair, converted by `parseTimeToMinutes` exactly as
  the source does, or — for values the database stores in SQL `time` columns —
  directly as minutes-since-midnight naturals (SQL `time` values compare
  chronologically, and the zero-padded "HH:MM" rendering is injective, so the
  source's string / time comparisons coincide with comparisons of the minute
  values);
- calendar dates are day indices (`Nat`); SQL timestamps are minutes since an
  epoch, so `DATE(ts)` is `ts / 1440` and `date || 'T' || time` is
  `date * 1440 + minutes`;
- each SQL query is embedded as the corresponding filter / sum over an explicit
  database state `DB` (the `JOIN bookings b ON b.id = bi.booking_id` with a
  status condition becomes `ownerActive`; booking ids are primary keys);
- JavaScript `Math.round` is `jsRound` (floor of x + 1/2, which is how JS
  rounds halves, including for negative arguments);
- monetary amounts and hourly rates are rationals (`ℚ`);
- fallible handlers return `Except String` / pair the response with the
  (possibly unchanged) database state.
-/

namespace BookingSys

/-- Booking status: the `status` column of `bookings` / legacy JSON records. -/
inductive Status where
  | pending
  | confirmed
  | cancelled
deriving DecidableEq, Repr

/-- The `item_type` strings of booking items ("room_rental", a catalog type such
as "class"), plus the synthetic "class_session" tag `getRoomConflicts` puts on
class-table conflicts. -/
inductive ItemType where
  | room_rental
  | class_enrollment
  | class_session
deriving DecidableEq, Repr

/-- `period_type` of a booking item: "normal" | "peak" | "catalog". -/
inductive PeriodType where
  | normal
  | peak
  | catalog
deriving DecidableEq, Repr

/-- An "HH:MM" clock-time label, already split into its two numeric fields
(the source splits on ":" and maps `Number`). -/
structure ClockTime where
  hour : Nat
  minute : Nat
deriving DecidableEq, Repr

/-- server.js `parseTimeToMinutes` (and the legacy `timeStringToMinutes`):
hour * 60 + minute. -/
def parseTimeToMinutes (t : ClockTime) : Nat :=
  t.hour * 60 + t.minute

/-- A row of the `bookings` table (the columns the embedded operations read). -/
structure Booking where
  id : Nat
  status : Status
  adminNotes : Option String := none
  confirmedAt : Option Nat := none
  cancelledAt : Option Nat := none
  updatedAt : Nat := 0
deriving DecidableEq, Repr

/-- A row of the `booking_items` table. `startTime`/`endTime` are SQL `time`
values kept as minutes since midnight; `date` is a day index. -/
structure BookingItem where
  bookingId : Nat
  itemType : ItemType
  catalogItemId : Option Nat := none
  date : Nat
  startTime : Nat
  endTime : Nat
  peopleCount : Nat := 1
  periodType : Option PeriodType := none
deriving DecidableEq, Repr

/-- A row of the `classes` table: `start_time`/`end_time` are timestamps
(minutes since the epoch). -/
structure ClassRow where
  id : Nat
  name : String := ""
  capacity : Nat := 0
  startTs : Nat
  endTs : Nat
deriving DecidableEq, Repr

/-- A row of the `class_bookings` table (status lives on the row itself). -/
structure ClassBooking where
  id : Nat
  classId : Nat
  status : Status
  peopleCount : Nat := 1
deriving DecidableEq, Repr

/-- A row of the `catalog_items` table (the columns the capacity logic reads). -/
structure CatalogItem where
  id : Nat
  name : String := ""
  type : ItemType := ItemType.class_enrollment
  capacity : Nat := 0
deriving DecidableEq, Repr

/-- The database state the embedded queries run against. -/
structure DB where
  bookings : List Booking := []
  items : List BookingItem := []
  classes : List ClassRow := []
  classBookings : List ClassBooking := []
  catalogItems : List CatalogItem := []
deriving DecidableEq, Repr

/-- The SQL pattern `IF excl THEN AND NOT f(excl)`-style optional clause: a
condition added to a query only when the optional parameter is present. -/
def optFilter (o : Option Nat) (f : Nat → Bool) : Bool :=
  match o with
  | none => true
  | some x => f x

/-- `SELECT * FROM bookings WHERE id = $1` (primary-key lookup). -/
def findBooking (db : DB) (id : Nat) : Option Booking :=
  db.bookings.find? (fun b => b.id == id)

/-- The items of one booking (`getBookingItemsByBookingIds` restricted to one
booking id; the claims do not depend on the ORDER BY). -/
def bookingItemsOf (db : DB) (id : Nat) : List BookingItem :=
  db.items.filter (fun bi => bi.bookingId == id)

/-- The `JOIN bookings b ON b.id = bi.booking_id ... AND b.status IN
('pending','confirmed')` condition of the availability / capacity queries. -/
def ownerActive (db : DB) (bookingId : Nat) : Bool :=
  db.bookings.any (fun b =>
    b.id == bookingId && (b.status == Status.pending || b.status == Status.confirmed))

/-- The booking-item half of db/index.js `getRoomConflicts`: same date,
room_rental, owning booking pending/confirmed, `start_time < $endTime AND
end_time > $startTime`, optionally excluding one booking id and optionally
restricted to the same catalog item or a general (NULL catalog) booking. -/
def getRoomBookingConflicts (db : DB) (date s e : Nat)
    (excludeBookingId catalogItemId : Option Nat) : List BookingItem :=
  db.items.filter (fun bi =>
    bi.date == date
    && bi.itemType == ItemType.room_rental
    && ownerActive db bi.bookingId
    && decide (bi.startTime < e)
    && decide (bi.endTime > s)
    && optFilter excludeBookingId (fun x => bi.bookingId != x)
    && optFilter catalogItemId (fun c =>
         bi.catalogItemId == some c || bi.catalogItemId == Option.none))

/-- The class half of db/index.js `getRoomConflicts`:
`DATE(start_time) = $date AND start_time < date T endTime AND
end_time > date T startTime`. -/
def getRoomClassConflicts (db : DB) (date s e : Nat) : List ClassRow :=
  db.classes.filter (fun c =>
    c.startTs / 1440 == date
    && decide (c.startTs < date * 1440 + e)
    && decide (c.endTs > date * 1440 + s))

/-- db/index.js `getRoomConflicts`: the booking-item conflicts followed by the
class conflicts (the source concatenates the two result arrays). -/
def getRoomConflicts (db : DB) (date s e : Nat)
    (excludeBookingId catalogItemId : Option Nat) : List (BookingItem ⊕ ClassRow) :=
  (getRoomBookingConflicts db date s e excludeBookingId catalogItemId).map Sum.inl
    ++ (getRoomClassConflicts db date s e).map Sum.inr

/-- Result shape of db/index.js `checkRentalAvailability`. -/
structure AvailabilityResult where
  available : Bool
  conflicts : List (BookingItem ⊕ ClassRow)
deriving DecidableEq, Repr

/-- db/index.js `checkRentalAvailability`: available iff `conflicts.length === 0`. -/
def checkRentalAvailability (db : DB) (date s e : Nat)
    (excludeBookingId catalogItemId : Option Nat) : AvailabilityResult :=
  let conflicts := getRoomConflicts db date s e excludeBookingId catalogItemId
  { available := conflicts.isEmpty, conflicts := conflicts }

/-- A line item of a new booking request after normalization (server.js
POST /api/bookings builds these in `normalizedItems`). Times are the "HH:MM"
labels, kept as `ClockTime`. -/
structure NormItem where
  catalogItemId : Option Nat := none
  itemType : ItemType
  date : Nat
  startTime : ClockTime
  endTime : ClockTime
  duration : Int := 0
  peopleCount : Nat := 1
  periodType : PeriodType := PeriodType.normal
deriving DecidableEq, Repr

/-- server.js `hasInPayloadRoomConflict`: a room_rental item of the same request
on the same date whose `[start, end)` range overlaps the target half-openly. -/
def hasInPayloadRoomConflict (items : List NormItem) (date : Nat)
    (startTime endTime : ClockTime) : Bool :=
  let targetStart := parseTimeToMinutes startTime
  let targetEnd := parseTimeToMinutes endTime
  items.any (fun existing =>
    existing.itemType == ItemType.room_rental
    && existing.date == date
    && decide (parseTimeToMinutes existing.startTime < targetEnd)
    && decide (parseTimeToMinutes existing.endTime > targetStart))

/-- C1. The conflict-detection operations report a conflict exactly under the
half-open overlap rule `s1 < e2 AND s2 < e1`: a stored room-rental item (resp. a
scheduled class, resp. an item of the same request) is reported iff it is a
same-date, active (pending/confirmed-owned) room_rental whose range strictly
straddles the candidate range on both sides; `checkRentalAvailability` is
available iff the conflict list is empty. Touching endpoints fail the strict
inequalities, so they are never reported. -/
theorem C1_half_open_overlap (db : DB) (date s e : Nat) :
    (∀ bi : BookingItem, bi ∈ getRoomBookingConflicts db date s e none none ↔
      bi ∈ db.items ∧ bi.date = date ∧ bi.itemType = ItemType.room_rental ∧
        ownerActive db bi.bookingId = true ∧ bi.startTime < e ∧ s < bi.endTime)
    ∧ (∀ c : ClassRow, c ∈ getRoomClassConflicts db date s e ↔
      c ∈ db.classes ∧ c.startTs / 1440 = date ∧
        c.startTs < date * 1440 + e ∧ date * 1440 + s < c.endTs)
    ∧ (∀ (items : List NormItem) (st en : ClockTime),
        hasInPayloadRoomConflict items date st en = true ↔
          ∃ x ∈ items, x.itemType = ItemType.room_rental ∧ x.date = date ∧
            parseTimeToMinutes x.startTime < parseTimeToMinutes en ∧
            parseTimeToMinutes st < parseTimeToMinutes x.endTime)
    ∧ (∀ excl catId : Option Nat,
        (checkRentalAvailability db date s e excl catId).available = true ↔
          getRoomConflicts db date s e excl catId = []) := by
  refine ⟨?_, ?_, ?_, ?_⟩
  · intro bi
    simp only [getRoomBookingConflicts, List.mem_filter, Bool.and_eq_true,
      decide_eq_true_eq, beq_iff_eq, optFilter, gt_iff_lt]
    tauto
  · intro c
    simp only [getRoomClassConflicts, List.mem_filter, Bool.and_eq_true,
      decide_eq_true_eq, beq_iff_eq, gt_iff_lt]
    tauto
  · intro items st en
    simp only [hasInPayloadRoomConflict, List.any_eq_true, Bool.and_eq_true,
      decide_eq_true_eq, beq_iff_eq, gt_iff_lt]
    tauto
  · intro excl catId
    simp only [checkRentalAvailability, List.isEmpty_iff]

/-- A record of the legacy file-based server's bookings.json: status, date and
the time range live directly on the booking. -/
structure LegacyBooking where
  id : Nat
  date : Nat
  status : Status
  startTime : ClockTime
  duration : Nat
deriving DecidableEq, Repr

/-- The slot loop of the legacy `generateSlotsForDuration`, with an explicit
iteration bound (the JS `while` advances by `slotInterval ≥ 1` each turn, so
`endM - cur` iterations always suffice; a non-positive interval, for which the
JS loop would not terminate, yields the empty list here). Slots are kept as
minute values: the zero-padded "HH:MM" labels the source pushes are in
bijection with them. -/
def genSlotsAux : Nat → Nat → Nat → Nat → List Nat
  | 0, _, _, _ => []
  | fuel + 1, cur, endM, interval =>
    if cur < endM then cur :: genSlotsAux fuel (cur + interval) endM interval
    else []

/-- Legacy server.js `generateSlotsForDuration`: slot-start labels from the
start time to start + duration, stepping by the slot interval. -/
def generateSlotsForDuration (startTime : ClockTime) (durationMinutes : Nat)
    (slotInterval : Nat) : List Nat :=
  let startM := parseTimeToMinutes startTime
  if slotInterval == 0 then []
  else genSlotsAux (startM + durationMinutes - startM) startM (startM + durationMinutes) slotInterval

/-- Legacy server.js `areSlotsAvailable`: enumerate the requested slots, keep
the bookings with the same date and status 'confirmed' (excluding at most one
booking id), and report available iff no kept booking shares a slot. -/
def areSlotsAvailable (bookings : List LegacyBooking) (date : Nat)
    (startTime : ClockTime) (duration : Nat) (excludeBookingId : Option Nat)
    (slotInterval : Nat) : Bool :=
  let requestedSlots := generateSlotsForDuration startTime duration slotInterval
  let confirmedBookings := bookings.filter (fun b =>
    b.date == date && b.status == Status.confirmed
      && optFilter excludeBookingId (fun x => b.id != x))
  !(confirmedBookings.any (fun b =>
      let bookedSlots := generateSlotsForDuration b.startTime b.duration slotInterval
      requestedSlots.any (fun slot => bookedSlots.contains slot)))

/-- `db` with the cancelled bookings removed. -/
def dropCancelled (db : DB) : DB :=
  { db with bookings := db.bookings.filter (fun b => !(b.status == Status.cancelled)) }

theorem ownerActive_dropCancelled (db : DB) (bookingId : Nat) :
    ownerActive (dropCancelled db) bookingId = ownerActive db bookingId := by
  simp only [ownerActive, dropCancelled]
  induction db.bookings with
  | nil => rfl
  | cons b rest ih =>
    by_cases hb : b.status = Status.cancelled <;>
      simp [List.filter_cons, List.any_cons, hb] <;> cases b <;> simp_all [ih]

/-- C2 counterexample. The claim says every availability check treats pending
intervals as blocking. The legacy `areSlotsAvailable` keeps only bookings with
status 'confirmed': with one pending booking occupying 10:00-11:00, a request
for the identical 10:00-11:00 range on the same date is reported available,
while the same booking marked confirmed blocks it. -/
theorem C2_counterexample :
    areSlotsAvailable [⟨1, 0, Status.pending, ⟨10, 0⟩, 60⟩] 0 ⟨10, 0⟩ 60 none 30 = true
    ∧ areSlotsAvailable [⟨1, 0, Status.confirmed, ⟨10, 0⟩, 60⟩] 0 ⟨10, 0⟩ 60 none 30 = false := by
  constructor <;> rfl

/-- C2 amended. The database-backed conflict check considers exactly the
intervals whose owning booking is pending or confirmed — removing cancelled
bookings changes nothing, and every reported conflict has an active owner —
but the legacy file-based `areSlotsAvailable` considers only confirmed
bookings: pending (and cancelled) bookings never block there. -/
theorem C2_active_blocking (db : DB) (date s e : Nat)
    (excl catId : Option Nat) (legacy : List LegacyBooking)
    (st : ClockTime) (dur : Nat) (lexcl : Option Nat) (interval : Nat) :
    getRoomBookingConflicts (dropCancelled db) date s e excl catId
        = getRoomBookingConflicts db date s e excl catId
    ∧ (∀ bi, bi ∈ getRoomBookingConflicts db date s e excl catId →
        ownerActive db bi.bookingId = true)
    ∧ areSlotsAvailable legacy date st dur lexcl interval
        = areSlotsAvailable (legacy.filter (fun b => b.status == Status.confirmed))
            date st dur lexcl interval := by
  refine ⟨?_, ?_, ?_⟩
  · simp only [getRoomBookingConflicts]
    have hitems : (dropCancelled db).items = db.items := rfl
    rw [hitems]
    congr 1
    funext bi
    rw [ownerActive_dropCancelled]
  · intro bi hbi
    simp only [getRoomBookingConflicts, List.mem_filter, Bool.and_eq_true] at hbi
    exact hbi.2.1.1.1.1.2
  · simp only [areSlotsAvailable, List.filter_filter]
    congr 2
    refine List.filter_congr ?_
    intro b _
    cases hb : b.status == Status.confirmed <;> simp [hb]

/-- The `pricing.peakSchedule` settings object. -/
structure PeakSchedule where
  days : List String := []
  startTime : Option ClockTime := none
  endTime : Option ClockTime := none
deriving DecidableEq, Repr

/-- The `settings.pricing` object: the four hourly-rate cells and the peak
schedule (the fields the embedded operations read). -/
structure Pricing where
  normalUpTo10 : ℚ := 0
  peakUpTo10 : ℚ := 0
  normalUpTo18 : ℚ := 0
  peakUpTo18 : ℚ := 0
  peakSchedule : Option PeakSchedule := none
deriving DecidableEq, Repr

/-- The settings singleton (restricted to the fields the embedded operations
read; operating hours etc. are consumed by code outside the claims). -/
structure Settings where
  pricing : Pricing := {}
deriving DecidableEq, Repr

/-- server.js `resolvePeakSchedule` after resolving the defaults: lower-cased
day tokens, start defaulting to 18:00, end defaulting to 23:00. -/
structure ResolvedPeak where
  days : List String
  startTime : ClockTime
  endTime : ClockTime
deriving DecidableEq, Repr

/-- `day.toString().toLowerCase()`: character-wise lower-casing, embedded
structurally over the string's character list so the kernel can evaluate it
(extensionally `String.toLower`). -/
def lowerString (s : String) : String :=
  ⟨s.data.map Char.toLower⟩

/-- server.js `resolvePeakSchedule`. -/
def resolvePeakSchedule (settings : Settings) : Option ResolvedPeak :=
  match settings.pricing.peakSchedule with
  | none => none
  | some schedule =>
    some { days := schedule.days.map (fun day => lowerString day),
           startTime := schedule.startTime.getD ⟨18, 0⟩,
           endTime := schedule.endTime.getD ⟨23, 0⟩ }

/-- A well-formed calendar date (the source parses the "YYYY-MM-DD" label; the
NaN branch for a malformed label is outside this embedding). -/
structure CivilDate where
  year : Nat
  month : Nat
  day : Nat
deriving DecidableEq, Repr

/-- Day of week of a Gregorian civil date, 0 = Sunday — the value JavaScript's
`new Date(dateString + "T00:00:00").getDay()` produces for a well-formed date
(Sakamoto's method). -/
def dayOfWeek (y m d : Nat) : Nat :=
  let t := [0, 3, 2, 5, 0, 3, 5, 1, 4, 6, 2, 4]
  let yy := if m < 3 then y - 1 else y
  (yy + yy / 4 - yy / 100 + yy / 400 + t.getD (m - 1) 0 + d) % 7

/-- The `['sun','mon','tue','wed','thu','fri','sat'][dayIndex]` lookup of
server.js `determinePeriodType`. -/
def weekdayToken (date : CivilDate) : String :=
  ["sun", "mon", "tue", "wed", "thu", "fri", "sat"].getD
    (dayOfWeek date.year date.month date.day) ""

/-- server.js `determinePeriodType`: 'peak' iff a peak schedule with a
non-empty day list exists, the date's weekday token is listed, and the
candidate range overlaps the peak window half-openly; otherwise 'normal'. -/
def determinePeriodType (date : CivilDate) (startTime endTime : ClockTime)
    (settings : Settings) : PeriodType :=
  match resolvePeakSchedule settings with
  | none => PeriodType.normal
  | some schedule =>
    if schedule.days.length == 0 then PeriodType.normal
    else if !(schedule.days.contains (weekdayToken date)) then PeriodType.normal
    else
      let startMinutes := parseTimeToMinutes startTime
      let endMinutes := parseTimeToMinutes endTime
      let peakStart := parseTimeToMinutes schedule.startTime
      let peakEnd := parseTimeToMinutes schedule.endTime
      if decide (startMinutes < peakEnd) && decide (endMinutes > peakStart) then
        PeriodType.peak
      else PeriodType.normal

/-- server.js `resolveHourlyRate`: reject above 18 people, pick the
(bracket × period) hourly-rate cell otherwise. -/
def resolveHourlyRate (pricing : Pricing) (peopleCount : Nat)
    (periodType : PeriodType) : Except String ℚ :=
  if 18 < peopleCount then
    Except.error "Maximum capacity per booking item is 18 people"
  else if peopleCount ≤ 10 then
    Except.ok (if periodType == PeriodType.peak then pricing.peakUpTo10
               else pricing.normalUpTo10)
  else
    Except.ok (if periodType == PeriodType.peak then pricing.peakUpTo18
               else pricing.normalUpTo18)

/-- JavaScript `Math.round`: halves round toward positive infinity. -/
def jsRound (x : ℚ) : ℤ :=
  ⌊x + 1 / 2⌋

/-- server.js `calculateRoomRentalPrice`: hourly rate × (duration / 60), then
`Math.round(total * 100) / 100`. -/
def calculateRoomRentalPrice (duration peopleCount : Nat) (periodType : PeriodType)
    (settings : Settings) : Except String ℚ :=
  match resolveHourlyRate settings.pricing peopleCount periodType with
  | Except.error msg => Except.error msg
  | Except.ok rate =>
    let hours : ℚ := (duration : ℚ) / 60
    let total := rate * hours
    Except.ok ((jsRound (total * 100) : ℚ) / 100)

/-- The spec's wording of the §4.4 rate cell: bracket by headcount (≤ 10 vs
≤ 18), column by period type. Stated from the spec for comparison with
`resolveHourlyRate`. -/
def specCellRate (pricing : Pricing) (peopleCount : Nat)
    (periodType : PeriodType) : ℚ :=
  if peopleCount ≤ 10 then
    (if periodType = PeriodType.peak then pricing.peakUpTo10 else pricing.normalUpTo10)
  else
    (if periodType = PeriodType.peak then pricing.peakUpTo18 else pricing.normalUpTo18)

/-- The spec's wording of rounding: round-half-up at 2 decimal places. -/
def specRoundHalfUp2 (x : ℚ) : ℚ :=
  ((⌊x * 100 + 1 / 2⌋ : ℤ) : ℚ) / 100

/-- The testable-properties example schedule: peak on fri/sat/sun, 18:00-23:00. -/
def examplePeakSettings : Settings :=
  { pricing := { peakSchedule := some { days := ["fri", "sat", "sun"],
                                        startTime := some ⟨18, 0⟩,
                                        endTime := some ⟨23, 0⟩ } } }

/-- The testable-properties example pricing: normalUpTo10 of 250 per hour. -/
def examplePricing250 : Settings :=
  { pricing := { normalUpTo10 := 250 } }

theorem determinePeriodType_eq_ite (date : CivilDate) (s e : ClockTime)
    (base : Settings) (sch : PeakSchedule) :
    determinePeriodType date s e
        { base with pricing := { base.pricing with peakSchedule := some sch } }
      = if (sch.days.map (fun day => lowerString day)).contains (weekdayToken date)
            && decide (parseTimeToMinutes s < parseTimeToMinutes (sch.endTime.getD ⟨23, 0⟩))
            && decide (parseTimeToMinutes (sch.startTime.getD ⟨18, 0⟩) < parseTimeToMinutes e)
        then PeriodType.peak else PeriodType.normal := by
  simp only [determinePeriodType, resolvePeakSchedule]
  rcases hdays : sch.days.map (fun day => lowerString day) with _ | ⟨d0, drest⟩
  · simp [hdays]
  · cases hmem : (d0 :: drest).contains (weekdayToken date) <;>
      cases hs : decide (parseTimeToMinutes s < parseTimeToMinutes (sch.endTime.getD ⟨23, 0⟩)) <;>
      cases he : decide (parseTimeToMinutes (sch.startTime.getD ⟨18, 0⟩) < parseTimeToMinutes e) <;>
      simp_all

/-- C6. Period classification is 'peak' exactly when the date's weekday token
is in the (lower-cased) peak-day set and the requested range overlaps the
peak clock window under the half-open rule, otherwise 'normal'; with the
example schedule {fri, sat, sun, 18:00-23:00}, Friday 2026-10-09 17:30-19:00
is peak and Friday 2026-10-09 09:00-10:00 is normal. -/
theorem C6_peak_classification (base : Settings) (sch : PeakSchedule)
    (date : CivilDate) (s e : ClockTime) :
    (determinePeriodType date s e
        { base with pricing := { base.pricing with peakSchedule := some sch } }
          = PeriodType.peak ↔
      (sch.days.map (fun day => lowerString day)).contains (weekdayToken date) = true
      ∧ parseTimeToMinutes s < parseTimeToMinutes (sch.endTime.getD ⟨23, 0⟩)
      ∧ parseTimeToMinutes (sch.startTime.getD ⟨18, 0⟩) < parseTimeToMinutes e)
    ∧ determinePeriodType ⟨2026, 10, 9⟩ ⟨17, 30⟩ ⟨19, 0⟩ examplePeakSettings
        = PeriodType.peak
    ∧ determinePeriodType ⟨2026, 10, 9⟩ ⟨9, 0⟩ ⟨10, 0⟩ examplePeakSettings
        = PeriodType.normal := by
  refine ⟨?_, by rfl, by rfl⟩
  rw [determinePeriodType_eq_ite]
  cases hmem : (sch.days.map (fun day => lowerString day)).contains (weekdayToken date) <;>
    cases hs : decide (parseTimeToMinutes s < parseTimeToMinutes (sch.endTime.getD ⟨23, 0⟩)) <;>
    cases he : decide (parseTimeToMinutes (sch.startTime.getD ⟨18, 0⟩) < parseTimeToMinutes e) <;>
    simp_all

/-- C7. For headcounts within the 18-person ceiling, the room-rental price is
the (headcount-bracket × period-type) hourly rate times duration / 60, rounded
half-up at 2 decimals; a normalUpTo10 rate of 250/hour on a 90-minute 4-person
normal-period booking prices at exactly 375. -/
theorem C7_price_formula (settings : Settings) (duration peopleCount : Nat)
    (periodType : PeriodType) (h : peopleCount ≤ 18) :
    calculateRoomRentalPrice duration peopleCount periodType settings
        = Except.ok (specRoundHalfUp2
            (specCellRate settings.pricing peopleCount periodType * ((duration : ℚ) / 60)))
    ∧ calculateRoomRentalPrice 90 4 PeriodType.normal examplePricing250
        = Except.ok 375 := by
  constructor
  · have h18 : ¬ (18 < peopleCount) := by omega
    by_cases h10 : peopleCount ≤ 10 <;>
      cases periodType <;>
        simp [calculateRoomRentalPrice, resolveHourlyRate, specCellRate,
          specRoundHalfUp2, jsRound, h18, h10, mul_assoc]
  · show calculateRoomRentalPrice 90 4 PeriodType.normal examplePricing250
        = Except.ok 375
    simp only [calculateRoomRentalPrice, resolveHourlyRate, examplePricing250,
      jsRound]
    norm_num [show ¬ (PeriodType.normal = PeriodType.peak) from by simp]

/-- Witness for C7 at a concrete input: the 90-minute, 4-person, normal-period
example discharges the headcount hypothesis. -/
theorem C7_price_formula_witness :
    calculateRoomRentalPrice 90 4 PeriodType.normal examplePricing250
        = Except.ok (specRoundHalfUp2
            (specCellRate examplePricing250.pricing 4 PeriodType.normal * ((90 : ℚ) / 60))) :=
  (C7_price_formula examplePricing250 90 4 PeriodType.normal (by decide)).1

/-- `SELECT * FROM catalog_items WHERE id = $1`. -/
def getCatalogItemById (db : DB) (id : Nat) : Option CatalogItem :=
  db.catalogItems.find? (fun it => it.id == id)

/-- db/index.js `getCatalogItemCapacityUsage`: sum of `people_count` over the
booking items referencing the catalog item whose owning booking is pending or
confirmed, optionally excluding one booking id. -/
def getCatalogItemCapacityUsage (db : DB) (catalogItemId : Nat)
    (excludeBookingId : Option Nat) : Nat :=
  ((db.items.filter (fun bi =>
      bi.catalogItemId == some catalogItemId
      && ownerActive db bi.bookingId
      && optFilter excludeBookingId (fun x => bi.bookingId != x))).map
    (fun bi => bi.peopleCount)).sum

/-- db/index.js `getClassCapacityUsage`: sum of `people_count` over the
pending/confirmed class bookings of the class, optionally excluding one
class-booking id. -/
def getClassCapacityUsage (db : DB) (classId : Nat)
    (excludeBookingId : Option Nat) : Nat :=
  ((db.classBookings.filter (fun cb =>
      cb.classId == classId
      && (cb.status == Status.pending || cb.status == Status.confirmed)
      && optFilter excludeBookingId (fun x => cb.id != x))).map
    (fun cb => cb.peopleCount)).sum

/-- The row update of db/index.js `updateBookingStatus`: set the status and
`updated_at`, set `admin_notes` only when notes were supplied, and stamp
`confirmed_at := NOW()` whenever the target status is 'confirmed' (resp.
`cancelled_at` for 'cancelled'). -/
def applyStatusUpdate (b : Booking) (status : Status) (adminNotes : Option String)
    (now : Nat) : Booking :=
  { b with
      status := status
      updatedAt := now
      adminNotes := match adminNotes with
        | some notes => some notes
        | none => b.adminNotes
      confirmedAt := if status == Status.confirmed then some now else b.confirmedAt
      cancelledAt := if status == Status.cancelled then some now else b.cancelledAt }

/-- db/index.js `updateBookingStatus`: `UPDATE bookings SET ... WHERE id = $id
RETURNING *`, `none` when no row matched. Returns the updated state and the
returned row. -/
def updateBookingStatus (db : DB) (id : Nat) (status : Status)
    (adminNotes : Option String) (now : Nat) : Option (DB × Booking) :=
  match findBooking db id with
  | none => none
  | some b =>
    some ({ db with bookings := db.bookings.map (fun x =>
              if x.id == id then applyStatusUpdate x status adminNotes now else x) },
          applyStatusUpdate b status adminNotes now)

/-- The per-item re-validation of the PATCH /api/bookings/:id/status handler
when the target status is 'confirmed': room-rental items must have no time
conflict (excluding the booking itself), catalog-linked items must still fit
the capacity (excluding the booking itself), and room-rental items must still
resolve an hourly rate. Returns the first error, as the handler's loop does. -/
def confirmItemError (db : DB) (settings : Settings) (bookingId : Nat)
    (item : BookingItem) : Option String :=
  if item.itemType == ItemType.room_rental
      && !(getRoomConflicts db item.date item.startTime item.endTime
            (some bookingId) none).isEmpty then
    some "Cannot confirm booking. Time slot is already taken."
  else
    let rateCheck :=
      if item.itemType == ItemType.room_rental then
        match resolveHourlyRate settings.pricing item.peopleCount
            (item.periodType.getD PeriodType.normal) with
        | Except.error msg => some msg
        | Except.ok _ => none
      else none
    match item.catalogItemId with
    | none => rateCheck
    | some cid =>
      match getCatalogItemById db cid with
      | none => some "Linked catalog item no longer exists."
      | some catalogItem =>
        if catalogItem.capacity
            < getCatalogItemCapacityUsage db cid (some bookingId) + item.peopleCount then
          some ("Cannot confirm booking. Capacity exceeded for "
            ++ catalogItem.name ++ ".")
        else rateCheck

/-- server.js PATCH /api/bookings/:id/status (database-backed handler): look
the booking up; when the target status is 'confirmed' AND the booking is not
already confirmed, re-validate every item and reject on the first error,
leaving the state unchanged; otherwise apply `updateBookingStatus`. -/
def patchBookingStatus (db : DB) (settings : Settings) (id : Nat)
    (status : Status) (adminNotes : Option String) (now : Nat) :
    Except String Booking × DB :=
  match findBooking db id with
  | none => (Except.error "Booking not found", db)
  | some booking =>
    let gate :=
      if status == Status.confirmed && !(booking.status == Status.confirmed) then
        (bookingItemsOf db id).findSome? (confirmItemError db settings id)
      else none
    match gate with
    | some msg => (Except.error msg, db)
    | none =>
      match updateBookingStatus db id status adminNotes now with
      | none => (Except.error "Failed to update booking status", db)
      | some (db2, updated) => (Except.ok updated, db2)

/-- The status a subsequent read of the booking reports. -/
def statusOf (db : DB) (id : Nat) : Option Status :=
  (findBooking db id).map (fun b => b.status)

/-- All-default settings (rates 0, no peak schedule) for concrete states. -/
def settings0 : Settings := {}

/-- A confirmed booking whose single room-rental item 10:00-11:00 on day 0
meanwhile overlaps a scheduled class: re-validation with the booking itself
excluded would report the class conflict. -/
def bkA : Booking := ⟨1, Status.confirmed, none, some 3, none, 3⟩

/-- The same customer record while still pending. -/
def bkP : Booking := ⟨1, Status.pending, none, none, none, 0⟩

/-- Room-rental item of booking 1: day 0, minutes 600-660 (10:00-11:00). -/
def itA : BookingItem := ⟨1, ItemType.room_rental, none, 0, 600, 660, 4, some PeriodType.normal⟩

/-- A class scheduled on day 0, 10:00-11:00 (timestamps in epoch minutes). -/
def clsX : ClassRow := ⟨50, "Yoga", 10, 600, 660⟩

/-- State: booking 1 already confirmed, its item overlapping the class. -/
def db1 : DB := ⟨[bkA], [itA], [clsX], [], []⟩

/-- State: booking 1 still pending, its item overlapping the class. -/
def db2cex : DB := ⟨[bkP], [itA], [clsX], [], []⟩

/-- C3 counterexample. The claim says re-applying 'confirmed' to an
already-confirmed booking re-runs the conflict check and rejects when an item
conflicts. In `db1` the re-validation query (excluding booking 1 itself)
reports a class conflict, yet re-applying 'confirmed' succeeds: the handler
skips all checks when the booking is already confirmed. -/
theorem C3_counterexample :
    (getRoomConflicts db1 0 600 660 (some 1) none).isEmpty = false
    ∧ (patchBookingStatus db1 settings0 1 Status.confirmed none 5).1
        = Except.ok (applyStatusUpdate bkA Status.confirmed none 5) := by
  constructor <;> rfl

/-- C3 amended. Applying 'confirmed' re-runs the per-item conflict, capacity
and rate checks (each excluding the booking's own reservation) only when the
booking is not already confirmed, and then a failing item rejects the
transition with the state unchanged; re-applying 'confirmed' to an
already-confirmed booking skips re-validation and succeeds. -/
theorem C3_confirm_revalidation (db : DB) (settings : Settings) (id : Nat)
    (adminNotes : Option String) (now : Nat) (booking : Booking)
    (hfind : findBooking db id = some booking) :
    (booking.status ≠ Status.confirmed →
      ∀ msg, (bookingItemsOf db id).findSome? (confirmItemError db settings id)
          = some msg →
        patchBookingStatus db settings id Status.confirmed adminNotes now
          = (Except.error msg, db))
    ∧ (booking.status = Status.confirmed →
        (patchBookingStatus db settings id Status.confirmed adminNotes now).1
          = Except.ok (applyStatusUpdate booking Status.confirmed adminNotes now)) := by
  constructor
  · intro hne msg hmsg
    have hb : (booking.status == Status.confirmed) = false := by
      cases hs : booking.status <;> simp_all
    simp [patchBookingStatus, hfind, hb, hmsg]
  · intro heq
    have hb : (booking.status == Status.confirmed) = true := by
      simp [heq]
    simp [patchBookingStatus, hfind, hb, updateBookingStatus]

/-- Witness for C3 at concrete states: the pending copy of the booking is
rejected with the conflict message and the state is unchanged; the confirmed
copy sails through. -/
theorem C3_confirm_revalidation_witness :
    patchBookingStatus db2cex settings0 1 Status.confirmed none 5
        = (Except.error "Cannot confirm booking. Time slot is already taken.", db2cex)
    ∧ (patchBookingStatus db1 settings0 1 Status.confirmed none 5).1
        = Except.ok (applyStatusUpdate bkA Status.confirmed none 5) := by
  constructor
  · exact (C3_confirm_revalidation db2cex settings0 1 none 5 bkP rfl).1
      (by decide) _ rfl
  · exact (C3_confirm_revalidation db1 settings0 1 none 5 bkA rfl).2 rfl

/-- A cancelled booking (cancelled at time 2). -/
def bkC : Booking := ⟨1, Status.cancelled, none, none, some 2, 2⟩

/-- State: a single cancelled booking. -/
def db3 : DB := ⟨[bkC], [], [], [], []⟩

/-- State: a single confirmed booking with its item. -/
def db4 : DB := ⟨[bkA], [itA], [], [], []⟩

/-- C4 counterexample. The claim says no status update moves a booking out of
'cancelled', nor a confirmed booking back to 'pending'. The handler accepts
any of the three target statuses with no transition guard: PATCHing the
cancelled booking of `db3` to 'pending' succeeds and its stored status becomes
'pending', and likewise the confirmed booking of `db4` moves back to
'pending'. -/
theorem C4_counterexample :
    statusOf db3 1 = some Status.cancelled
    ∧ (patchBookingStatus db3 settings0 1 Status.pending none 7).1
        = Except.ok (applyStatusUpdate bkC Status.pending none 7)
    ∧ statusOf (patchBookingStatus db3 settings0 1 Status.pending none 7).2 1
        = some Status.pending
    ∧ statusOf db4 1 = some Status.confirmed
    ∧ statusOf (patchBookingStatus db4 settings0 1 Status.pending none 7).2 1
        = some Status.pending := by
  refine ⟨rfl, rfl, rfl, rfl, rfl⟩

theorem findBooking_map_update (l : List Booking) (id : Nat) (b : Booking)
    (h : l.find? (fun x => x.id == id) = some b) (g : Booking → Booking)
    (hg : ∀ x, (g x).id = x.id) :
    (l.map (fun x => if x.id == id then g x else x)).find? (fun x => x.id == id)
      = some (g b) := by
  induction l with
  | nil => simp at h
  | cons a rest ih =>
    cases ha : (a.id == id) with
    | true =>
      simp only [List.find?_cons, ha] at h
      injection h with hab
      subst hab
      have hga : ((g a).id == id) = true := by
        rw [hg a]; exact ha
      simp only [List.map_cons, ha, if_true, List.find?_cons, hga]
    | false =>
      simp only [List.find?_cons, ha] at h
      simp only [List.map_cons, ha, Bool.false_eq_true, if_false, List.find?_cons]
      exact ih h

/-- C4 amended. The status-update endpoint accepts any of the three target
statuses regardless of the booking's current status — in particular a
cancelled booking can be moved back to 'pending' or 'confirmed' and a
confirmed booking back to 'pending'; only the transition into 'confirmed'
from a non-confirmed status is gated by re-validation. For any target other
than 'confirmed' the update succeeds unconditionally and the stored status
becomes the target. -/
theorem C4_no_transition_guard (db : DB) (settings : Settings) (id : Nat)
    (st : Status) (adminNotes : Option String) (now : Nat) (booking : Booking)
    (hfind : findBooking db id = some booking) (hst : st ≠ Status.confirmed) :
    (patchBookingStatus db settings id st adminNotes now).1
        = Except.ok (applyStatusUpdate booking st adminNotes now)
    ∧ statusOf (patchBookingStatus db settings id st adminNotes now).2 id
        = some st := by
  have hb : (st == Status.confirmed) = false := by
    cases st <;> simp_all
  have hupd : (patchBookingStatus db settings id st adminNotes now)
      = (Except.ok (applyStatusUpdate booking st adminNotes now),
         { db with bookings := db.bookings.map (fun x =>
             if x.id == id then applyStatusUpdate x st adminNotes now else x) }) := by
    simp [patchBookingStatus, hfind, hb, updateBookingStatus]
  refine ⟨by rw [hupd], ?_⟩
  rw [hupd]
  have hfind2 := findBooking_map_update db.bookings id booking hfind
    (fun x => applyStatusUpdate x st adminNotes now) (fun x => rfl)
  simp only [statusOf, findBooking] at *
  rw [hfind2]
  simp [applyStatusUpdate]

/-- Witness for C4: the cancelled booking of `db3` PATCHed to 'pending'. -/
theorem C4_no_transition_guard_witness :
    (patchBookingStatus db3 settings0 1 Status.pending none 7).1
        = Except.ok (applyStatusUpdate bkC Status.pending none 7)
    ∧ statusOf (patchBookingStatus db3 settings0 1 Status.pending none 7).2 1
        = some Status.pending :=
  C4_no_transition_guard db3 settings0 1 Status.pending none 7 bkC rfl (by decide)

/-- A booking that was confirmed at time 5, as `db5`'s sole row. -/
def bkA5 : Booking := ⟨1, Status.confirmed, none, some 5, none, 5⟩

/-- State: a single already-confirmed booking with `confirmedAt = 5`. -/
def db5 : DB := ⟨[bkA5], [], [], [], []⟩

/-- C5 counterexample. The claim says `confirmedAt` is set exactly once and
never overwritten, including on re-applying the same target status. Booking 1
of `db5` was confirmed at time 5; applying 'confirmed' again at time 9
overwrites `confirmedAt` with 9. -/
theorem C5_counterexample :
    (findBooking db5 1).map (fun b => b.confirmedAt) = some (some 5)
    ∧ (updateBookingStatus db5 1 Status.confirmed none 9).map
        (fun r => r.2.confirmedAt) = some (some 9) := by
  constructor <;> rfl

/-- C5 amended. `updateBookingStatus` stamps `confirmedAt` with the current
time on every application of 'confirmed' (overwriting any earlier value) and
`cancelledAt` on every application of 'cancelled'; a transition to any other
status leaves each timestamp unchanged (neither is ever cleared). -/
theorem C5_timestamp_stamping (db : DB) (id : Nat) (st : Status)
    (adminNotes : Option String) (now : Nat) (booking : Booking)
    (hfind : findBooking db id = some booking) :
    (updateBookingStatus db id st adminNotes now).map (fun r => r.2.confirmedAt)
        = some (if st = Status.confirmed then some now else booking.confirmedAt)
    ∧ (updateBookingStatus db id st adminNotes now).map (fun r => r.2.cancelledAt)
        = some (if st = Status.cancelled then some now else booking.cancelledAt) := by
  cases st <;> simp [updateBookingStatus, hfind, applyStatusUpdate]

/-- Witness for C5: re-confirming the booking of `db5` at time 9. -/
theorem C5_timestamp_stamping_witness :
    (updateBookingStatus db5 1 Status.confirmed none 9).map
        (fun r => r.2.confirmedAt) = some (some 9)
    ∧ (updateBookingStatus db5 1 Status.confirmed none 9).map
        (fun r => r.2.cancelledAt) = some bkA5.cancelledAt := by
  have h := C5_timestamp_stamping db5 1 Status.confirmed none 9 bkA5 rfl
  simpa using h

/-- server.js POST /api/bookings: `parseInt(sharedPeopleCountInput)` followed by
`Number.isInteger(p) && p > 0 ? Math.min(p, 18) : null`. `none` stands for a
missing / non-integer input. -/
def normalizeSharedPeopleCount (input : Option Int) : Option Int :=
  match input with
  | some parsed => if 0 < parsed then some (min parsed 18) else none
  | none => none

/-- server.js POST /api/bookings per-item headcount resolution: an explicit
positive per-item value wins, otherwise the normalized shared count (default
1); the source then re-checks positivity and rejects anything above 18 with
`itemLabel: maximum of 18 people per session.` -/
def resolveItemPeopleCount (itemLabel : String) (itemInput : Option Int)
    (normalizedShared : Option Int) : Except String Int :=
  let defaultPeopleCount := normalizedShared.getD 1
  let pc0 := match itemInput with
    | some v => if 0 < v then v else defaultPeopleCount
    | none => defaultPeopleCount
  let pc1 := if 0 < pc0 then pc0 else 1
  if 18 < pc1 then
    Except.error (itemLabel ++ ": maximum of 18 people per session.")
  else Except.ok pc1

/-- C8 counterexample. The claim says a request whose headcount exceeds 18 is
rejected, never silently clamped. A shared headcount of 25 with an item that
carries no per-item count is accepted: the shared value is clamped to 18 by
`Math.min` and the item proceeds with 18 people. -/
theorem C8_counterexample :
    normalizeSharedPeopleCount (some 25) = some 18
    ∧ resolveItemPeopleCount "Item #1" none (normalizeSharedPeopleCount (some 25))
        = Except.ok 18 := by
  constructor <;> rfl

/-- C8 amended. An explicit per-item headcount above 18 is rejected with a
validation error; a booking-level shared headcount above 18, however, is
silently clamped down to 18 before being used as an item's default, so such a
request is accepted with 18 people rather than rejected. -/
theorem C8_headcount_ceiling (label : String) (shared : Option Int) (v : Int)
    (hv : 18 < v) :
    resolveItemPeopleCount label (some v) shared
        = Except.error (label ++ ": maximum of 18 people per session.")
    ∧ normalizeSharedPeopleCount (some v) = some 18
    ∧ resolveItemPeopleCount label none (normalizeSharedPeopleCount (some v))
        = Except.ok 18 := by
  have h0 : (0 : Int) < v := by omega
  have hmin : min v 18 = 18 := min_eq_right (by omega)
  refine ⟨?_, ?_, ?_⟩
  · simp [resolveItemPeopleCount, h0, hv]
  · simp [normalizeSharedPeopleCount, h0, hmin]
  · simp [normalizeSharedPeopleCount, h0, hmin, resolveItemPeopleCount]

/-- Witness for C8 at the concrete over-limit headcount 25. -/
theorem C8_headcount_ceiling_witness :
    resolveItemPeopleCount "Item #1" (some 25) none
        = Except.error ("Item #1" ++ ": maximum of 18 people per session.")
    ∧ normalizeSharedPeopleCount (some 25) = some 18
    ∧ resolveItemPeopleCount "Item #1" none (normalizeSharedPeopleCount (some 25))
        = Except.ok 18 :=
  C8_headcount_ceiling "Item #1" none 25 (by decide)

/-- The running headcount already selected for a catalog item by the earlier
entries of the same request: sum of the headcounts among the first `i`
(catalogItemId, peopleCount) entries that reference `cid` (the value the
source accumulates in its `catalogUsage` map). -/
def earlierTally (reqs : List (Nat × Nat)) (i : Nat) (cid : Nat) : Nat :=
  (((reqs.take i).filter (fun r => r.1 == cid)).map (fun r => r.2)).sum

/-- The catalog-capacity portion of the POST /api/bookings item loop: walk the
(catalogItemId, peopleCount) pairs in order, look each catalog item up, reject
when `usedCapacity + alreadySelected + peopleCount > capacity`, and otherwise
add the headcount to the in-request tally before the next item. -/
def processCatalogItems (db : DB) :
    List (Nat × Nat) → (Nat → Nat) → Except String Unit
  | [], _ => Except.ok ()
  | (cid, pc) :: rest, tally =>
    match getCatalogItemById db cid with
    | none => Except.error "linked item not found."
    | some catalogItem =>
      let usedCapacity := getCatalogItemCapacityUsage db cid none
      if catalogItem.capacity < usedCapacity + tally cid + pc then
        Except.error (catalogItem.name ++ " has only "
          ++ toString (max ((catalogItem.capacity : Int) - (usedCapacity : Int)
                - (tally cid : Int)) 0)
          ++ " seats remaining.")
      else processCatalogItems db rest (fun k => if k == cid then tally k + pc else tally k)

theorem earlierTally_zero (reqs : List (Nat × Nat)) (cid : Nat) :
    earlierTally reqs 0 cid = 0 := by
  simp [earlierTally]

theorem earlierTally_cons_succ (cid pc : Nat) (rest : List (Nat × Nat))
    (i k : Nat) :
    earlierTally ((cid, pc) :: rest) (i + 1) k
      = (if cid == k then pc else 0) + earlierTally rest i k := by
  simp only [earlierTally, List.take_succ_cons, List.filter_cons]
  cases hc : (cid == k) <;> simp [hc]

theorem processCatalogItems_ok_iff (db : DB) (reqs : List (Nat × Nat)) :
    ∀ tally : Nat → Nat,
      processCatalogItems db reqs tally = Except.ok () ↔
        ∀ i (h : i < reqs.length),
          ∃ cat, getCatalogItemById db (reqs.get ⟨i, h⟩).1 = some cat ∧
            getCatalogItemCapacityUsage db (reqs.get ⟨i, h⟩).1 none
              + tally (reqs.get ⟨i, h⟩).1
              + earlierTally reqs i (reqs.get ⟨i, h⟩).1
              + (reqs.get ⟨i, h⟩).2 ≤ cat.capacity := by
  induction reqs with
  | nil =>
    intro tally
    simp [processCatalogItems]
  | cons hd rest ih =>
    obtain ⟨cid, pc⟩ := hd
    intro tally
    cases hlook : getCatalogItemById db cid with
    | none =>
      simp only [processCatalogItems, hlook]
      constructor
      · intro hcon
        cases hcon
      · intro hall
        obtain ⟨cat, hcat, _⟩ := hall 0 (by simp)
        rw [show ((((cid, pc) :: rest).get ⟨0, by simp⟩).1) = cid from rfl] at hcat
        rw [hlook] at hcat
        cases hcat
    | some cat =>
      simp only [processCatalogItems, hlook]
      by_cases hcap :
          cat.capacity < getCatalogItemCapacityUsage db cid none + tally cid + pc
      · rw [if_pos hcap]
        constructor
        · intro hcon
          cases hcon
        · intro hall
          obtain ⟨cat2, hcat2, hle⟩ := hall 0 (by simp)
          rw [show ((((cid, pc) :: rest).get ⟨0, by simp⟩).1) = cid from rfl] at hcat2 hle
          rw [show ((((cid, pc) :: rest).get ⟨0, by simp⟩).2) = pc from rfl] at hle
          rw [hlook] at hcat2
          injection hcat2 with hc2
          subst hc2
          rw [earlierTally_zero] at hle
          omega
      · rw [if_neg hcap]
        rw [ih (fun k => if k == cid then tally k + pc else tally k)]
        constructor
        · intro hall
          intro i h
          cases i with
          | zero =>
            refine ⟨cat, hlook, ?_⟩
            show getCatalogItemCapacityUsage db cid none + tally cid
                + earlierTally ((cid, pc) :: rest) 0 cid + pc ≤ cat.capacity
            rw [earlierTally_zero]
            omega
          | succ j =>
            have hj : j < rest.length := by
              simpa using Nat.lt_of_succ_lt_succ h
            simp only [List.get_cons_succ]
            obtain ⟨cat2, hcat2, hle⟩ := hall j hj
            refine ⟨cat2, hcat2, ?_⟩
            rw [earlierTally_cons_succ]
            by_cases hkc : (rest.get ⟨j, hj⟩).1 = cid
            · simp only [hkc, beq_self_eq_true, if_true] at hle ⊢
              omega
            · have h1 : ((rest.get ⟨j, hj⟩).1 == cid) = false := by
                simp only [beq_eq_false_iff_ne]
                exact hkc
              have h2 : (cid == (rest.get ⟨j, hj⟩).1) = false := by
                simp only [beq_eq_false_iff_ne]
                exact Ne.symm hkc
              rw [h1] at hle
              rw [h2]
              simp only [Bool.false_eq_true, if_false] at hle ⊢
              omega
        · intro hall i hi
          have hsucc := hall (i + 1) (by simpa using Nat.succ_lt_succ hi)
          simp only [List.get_cons_succ] at hsucc
          obtain ⟨cat2, hcat2, hle⟩ := hsucc
          refine ⟨cat2, hcat2, ?_⟩
          rw [earlierTally_cons_succ] at hle
          by_cases hkc : (rest.get ⟨i, hi⟩).1 = cid
          · simp only [hkc, beq_self_eq_true, if_true] at hle ⊢
            omega
          · have h1 : ((rest.get ⟨i, hi⟩).1 == cid) = false := by
              simp only [beq_eq_false_iff_ne]
              exact hkc
            have h2 : (cid == (rest.get ⟨i, hi⟩).1) = false := by
              simp only [beq_eq_false_iff_ne]
              exact Ne.symm hkc
            rw [h1]
            rw [h2] at hle
            simp only [Bool.false_eq_true, if_false] at hle ⊢
            omega

/-- C9. Catalog capacity admission: a single entry is admitted iff persisted
usage + in-request tally + its headcount fits the capacity; a whole request is
accepted iff every entry, at its position, fits with the tally seeded by the
earlier entries of the same request that reference the same resource; and the
persisted usage counts only pending/confirmed bookings (removing cancelled
bookings changes nothing). -/
theorem C9_capacity_running_tally (db : DB) (reqs : List (Nat × Nat))
    (cid pc : Nat) (tally : Nat → Nat) (excl : Option Nat) :
    (processCatalogItems db [(cid, pc)] tally = Except.ok () ↔
      ∃ cat, getCatalogItemById db cid = some cat ∧
        getCatalogItemCapacityUsage db cid none + tally cid + pc ≤ cat.capacity)
    ∧ (processCatalogItems db reqs (fun _ => 0) = Except.ok () ↔
        ∀ i (h : i < reqs.length),
          ∃ cat, getCatalogItemById db (reqs.get ⟨i, h⟩).1 = some cat ∧
            getCatalogItemCapacityUsage db (reqs.get ⟨i, h⟩).1 none
              + earlierTally reqs i (reqs.get ⟨i, h⟩).1
              + (reqs.get ⟨i, h⟩).2 ≤ cat.capacity)
    ∧ getCatalogItemCapacityUsage (dropCancelled db) cid excl
        = getCatalogItemCapacityUsage db cid excl := by
  refine ⟨?_, ?_, ?_⟩
  · rw [processCatalogItems_ok_iff]
    constructor
    · intro hall
      obtain ⟨cat, hcat, hle⟩ := hall 0 (by simp)
      rw [earlierTally_zero] at hle
      have hle2 : getCatalogItemCapacityUsage db cid none + tally cid + 0 + pc
          ≤ cat.capacity := hle
      exact ⟨cat, hcat, by omega⟩
    · rintro ⟨cat, hcat, hle⟩ i hi
      have hi0 : i = 0 := Nat.lt_one_iff.mp (by simpa using hi)
      subst hi0
      refine ⟨cat, hcat, ?_⟩
      show getCatalogItemCapacityUsage db cid none + tally cid
          + earlierTally [(cid, pc)] 0 cid + pc ≤ cat.capacity
      rw [earlierTally_zero]
      omega
  · rw [processCatalogItems_ok_iff]
    constructor
    · intro hall i hi
      obtain ⟨cat, hcat, hle⟩ := hall i hi
      exact ⟨cat, hcat, by simpa using hle⟩
    · intro hall i hi
      obtain ⟨cat, hcat, hle⟩ := hall i hi
      exact ⟨cat, hcat, by simpa using hle⟩
  · simp only [getCatalogItemCapacityUsage]
    have hitems : (dropCancelled db).items = db.items := rfl
    rw [hitems]
    have hfe : List.filter (fun bi =>
          bi.catalogItemId == some cid && ownerActive (dropCancelled db) bi.bookingId
            && optFilter excl (fun x => bi.bookingId != x)) db.items
        = List.filter (fun bi =>
          bi.catalogItemId == some cid && ownerActive db bi.bookingId
            && optFilter excl (fun x => bi.bookingId != x)) db.items := by
      refine List.filter_congr ?_
      intro bi _
      rw [ownerActive_dropCancelled]
    rw [hfe]

/-- The `{...item, availableCapacity, usedCapacity}` spread of server.js
`buildCatalogItemResponse` (base row kept whole; capacity arithmetic is done
in JS numbers, so the difference is an integer before the clamp). -/
structure EnrichedCatalogItem where
  item : CatalogItem
  availableCapacity : Int
  usedCapacity : Nat
deriving DecidableEq, Repr

/-- server.js `buildCatalogItemResponse`:
`availableCapacity = Math.max(item.capacity - usage, 0)`. -/
def buildCatalogItemResponse (db : DB) (items : List CatalogItem) :
    List EnrichedCatalogItem :=
  items.map (fun it =>
    let usage := getCatalogItemCapacityUsage db it.id none
    ⟨it, max ((it.capacity : Int) - (usage : Int)) 0, usage⟩)

/-- The `{...cls, seatsRemaining, usedCapacity}` spread of server.js
`buildClassResponse`. -/
structure EnrichedClass where
  cls : ClassRow
  seatsRemaining : Int
  usedCapacity : Nat
deriving DecidableEq, Repr

/-- server.js `buildClassResponse`:
`seatsRemaining = Math.max(cls.capacity - used, 0)`. -/
def buildClassResponse (db : DB) (classes : List ClassRow) :
    List EnrichedClass :=
  classes.map (fun c =>
    let used := getClassCapacityUsage db c.id none
    ⟨c, max ((c.capacity : Int) - (used : Int)) 0, used⟩)

/-- C10. Every catalog item and class returned by the public listing builders
reports remaining capacity `max(capacity - usedCapacity, 0)` — computed from
the non-cancelled usage of that resource — and the reported value is never
negative, including when the usage already exceeds the capacity. -/
theorem C10_remaining_capacity_clamped (db : DB) (items : List CatalogItem)
    (classes : List ClassRow) :
    (∀ r ∈ buildCatalogItemResponse db items,
      r.availableCapacity = max ((r.item.capacity : Int) - (r.usedCapacity : Int)) 0
      ∧ r.usedCapacity = getCatalogItemCapacityUsage db r.item.id none
      ∧ 0 ≤ r.availableCapacity)
    ∧ (∀ r ∈ buildClassResponse db classes,
      r.seatsRemaining = max ((r.cls.capacity : Int) - (r.usedCapacity : Int)) 0
      ∧ r.usedCapacity = getClassCapacityUsage db r.cls.id none
      ∧ 0 ≤ r.seatsRemaining) := by
  constructor
  · intro r hr
    simp only [buildCatalogItemResponse, List.mem_map] at hr
    obtain ⟨it, _, rfl⟩ := hr
    exact ⟨rfl, rfl, le_max_right _ _⟩
  · intro r hr
    simp only [buildClassResponse, List.mem_map] at hr
    obtain ⟨c, _, rfl⟩ := hr
    exact ⟨rfl, rfl, le_max_right _ _⟩

/-- A class of capacity 5 with 8 pending/confirmed seats already booked: the
public listing still reports 0 seats remaining, not a negative number. -/
def dbOverbooked : DB :=
  ⟨[], [], [⟨60, "Pilates", 5, 600, 660⟩],
   [⟨1, 60, Status.confirmed, 5⟩, ⟨2, 60, Status.pending, 3⟩], []⟩

theorem buildClassResponse_overbooked_clamps :
    getClassCapacityUsage dbOverbooked 60 none = 8
    ∧ buildClassResponse dbOverbooked dbOverbooked.classes
        = [⟨⟨60, "Pilates", 5, 600, 660⟩, 0, 8⟩] := by
  constructor <;> rfl

end BookingSys
